import Mathlib

/-!
# FFEMonitor: verification of the surveillance and dispatch core

Shallow embedding of the FFEMonitor backend (Python) in Lean 4, with theorems
settling the specification claims about it.  Each Python function relevant to a
claim is translated into an executable Lean definition; stateful code is
modelled by explicit state passing, database writes by operation traces, and
Python exceptions by `Except` / `Option` values.  Wall-clock time is modelled
by rational numbers, sleeps being exact.
-/

namespace FFEMonitor

/-! ## Python string primitives used by the embedded code -/

/-- Python `str.lower` restricted to the Latin-1 range: ASCII letters and the
accented letters U+00C0..U+00DE (except the multiplication sign) map to their
lowercase forms 32 code points higher; other characters are unchanged. -/
def pyCharLower (c : Char) : Char :=
  if 'A' ≤ c ∧ c ≤ 'Z' then Char.ofNat (c.toNat + 32)
  else if 'À' ≤ c ∧ c ≤ 'Þ' ∧ c ≠ '×' then Char.ofNat (c.toNat + 32)
  else c

/-- Python `str.lower` on a whole string (Latin-1 fragment). -/
def pyLower (s : String) : String := s.map pyCharLower

/-! ## `backend/config.py`: plan delays (claim C5)

`Settings` keeps only the fields that `get_delay_for_plan` reads; the defaults
are the source defaults (`delay_free = 600`, `delay_premium = 60`,
`delay_pro = 10`). -/

/-- The delay fields of `Settings` (`backend/config.py`, lines 37-40). -/
structure Settings where
  delay_free : Int := 600
  delay_premium : Int := 60
  delay_pro : Int := 10

/-- The process-wide `settings` instance with all environment overrides absent,
so every field holds its default. -/
def settings : Settings := {}

/-- `Settings.get_delay_for_plan` (`backend/config.py`, lines 94-101): build the
dict `{free: delay_free, premium: delay_premium, pro: delay_pro}` and look up
`plan.lower()`, defaulting to `delay_free`. -/
def Settings.get_delay_for_plan (s : Settings) (plan : String) : Int :=
  let delays := [("free", s.delay_free), ("premium", s.delay_premium), ("pro", s.delay_pro)]
  (delays.lookup (pyLower plan)).getD s.delay_free

/-- Claim C5: with the default settings, the per-subscriber delay lookup
returns 600 s for `free`, 60 s for `premium`, 10 s for `pro`, matching the plan
string case-insensitively (through `plan.lower()`), and falls back to the free
delay of 600 s for every other string. -/
theorem c5_plan_delay_lookup (plan : String) :
    settings.get_delay_for_plan plan =
      (if pyLower plan = "free" then 600
       else if pyLower plan = "premium" then 60
       else if pyLower plan = "pro" then 10
       else 600) := by
  by_cases h1 : pyLower plan = "free"
  · simp [Settings.get_delay_for_plan, settings, List.lookup, beq_iff_eq, h1]
  · by_cases h2 : pyLower plan = "premium"
    · simp [Settings.get_delay_for_plan, settings, List.lookup, beq_iff_eq, h1, h2]
    · by_cases h3 : pyLower plan = "pro"
      · simp [Settings.get_delay_for_plan, settings, List.lookup, beq_iff_eq, h1, h2, h3]
      · have b1 : (pyLower plan == "free") = false := beq_eq_false_iff_ne.mpr h1
        have b2 : (pyLower plan == "premium") = false := beq_eq_false_iff_ne.mpr h2
        have b3 : (pyLower plan == "pro") = false := beq_eq_false_iff_ne.mpr h3
        simp [Settings.get_delay_for_plan, settings, List.lookup, b1, b2, b3, h1, h2, h3]

/-! ## `backend/services/notification.py`: multi-channel fan-out (claim C10)

`MultiNotifier.send_notification` (lines 956-990) iterates its configured
notifiers; each call is wrapped in `try`/`except Exception`, a raising notifier
contributing `False` to `results`; the return value is `any(results)`.  A
channel outcome is modelled as `Option Bool`: `some b` when the channel's
`send_notification` returned `b`, `none` when it raised. -/

/-- `MultiNotifier.send_notification`, parameterized by the per-channel
outcomes of `notifier.send_notification` for the configured notifier list.
Returns the `results` list accumulated by the loop together with
`any(results)`. -/
def multiSendNotification (outcomes : List (Option Bool)) : List Bool × Bool :=
  let results := outcomes.map (fun o => o.getD false)
  (results, results.any id)

/-- Claim C10: `MultiNotifier.send_notification` never raises (it is a total
function of the channel outcomes), attempts every configured channel even when
an earlier channel raises (the `results` list has one entry per configured
channel, a raising channel contributing `false`), and returns `true` iff at
least one channel's send returned `true`. -/
theorem c10_multi_notifier_fanout :
    (∀ outcomes : List (Option Bool),
      ((multiSendNotification outcomes).1.length = outcomes.length ∧
       ∀ i : Fin outcomes.length,
         (multiSendNotification outcomes).1.get ⟨i, by simp [multiSendNotification]⟩ =
           (outcomes.get i).getD false)) ∧
    (∀ outcomes : List (Option Bool),
      (multiSendNotification outcomes).2 = true ↔ some true ∈ outcomes) := by
  constructor
  · intro outcomes
    constructor
    · simp [multiSendNotification]
    · intro i
      simp [multiSendNotification]
  · intro outcomes
    simp only [multiSendNotification, List.any_eq_true, List.mem_map]
    constructor
    · rintro ⟨b, ⟨o, ho, rfl⟩, hb⟩
      simp only [id_eq] at hb
      cases o with
      | none => simp at hb
      | some v =>
        simp only [Option.getD_some] at hb
        exact hb ▸ ho
    · intro h
      exact ⟨true, ⟨some true, h, rfl⟩, rfl⟩

/-! ## `backend/database.py`: the `concours` table (claim C6)

A row of the `concours` table (schema at `backend/database.py`, lines 18-31).
The table is modelled as a `List ConcoursRow`; `numero` carries a SQL `UNIQUE`
constraint but none of the statements below depend on it.  `_row_to_dict`
(lines 650-675) returns every column of the row unchanged (converting
`notifie` to a boolean and timestamps to `datetime` values), so `SELECT`
results are modelled as the rows themselves. -/

/-- One row of the `concours` table. -/
structure ConcoursRow where
  id : Int
  numero : Int
  nom : Option String
  statut : String
  notifie : Bool
  last_check : Option String
  created_at : String
  date_debut : Option String
  date_fin : Option String
  lieu : Option String
deriving DecidableEq

/-- `Database.get_concours_by_numero` (`backend/database.py`, lines 182-200):
`SELECT * FROM concours WHERE numero = ?` followed by `fetchone`, i.e. the
first row with the given `numero`, or `None`. -/
def get_concours_by_numero (db : List ConcoursRow) (numero : Int) : Option ConcoursRow :=
  db.find? (fun r => r.numero == numero)

/-- The per-row effect of `Database.update_concours_info`: each nullable
parameter overwrites its column through `COALESCE(?, column)`, so a `NULL`
argument keeps the stored value. -/
def coalescePatch (nom date_debut date_fin lieu : Option String)
    (r : ConcoursRow) : ConcoursRow :=
  { r with
    nom := nom.or r.nom
    date_debut := date_debut.or r.date_debut
    date_fin := date_fin.or r.date_fin
    lieu := lieu.or r.lieu }

/-- `Database.update_concours_info` (`backend/database.py`, lines 312-345):
`UPDATE concours SET nom = COALESCE(?, nom), date_debut = COALESCE(?,
date_debut), date_fin = COALESCE(?, date_fin), lieu = COALESCE(?, lieu) WHERE
numero = ?`, returning `cursor.rowcount > 0`. -/
def update_concours_info (db : List ConcoursRow) (numero : Int)
    (nom date_debut date_fin lieu : Option String) : List ConcoursRow × Bool :=
  (db.map (fun r => if r.numero = numero then coalescePatch nom date_debut date_fin lieu r else r),
   db.any (fun r => r.numero == numero))

/-- `find?` over a keyed in-place update: updating every row whose `numero`
matches and then looking the key up returns the image of the row the lookup
found before the update, because the update preserves `numero`. -/
theorem find?_map_keyed_update (db : List ConcoursRow) (numero : Int)
    (f : ConcoursRow → ConcoursRow) (hf : ∀ r, (f r).numero = r.numero) :
    (db.map (fun r => if r.numero = numero then f r else r)).find?
        (fun r => r.numero == numero) =
      (db.find? (fun r => r.numero == numero)).map f := by
  induction db with
  | nil => simp
  | cons a tl ih =>
    by_cases ha : a.numero = numero
    · simp [List.find?, ha, hf]
    · have hb : (a.numero == numero) = false := by simpa using ha
      simp [List.find?, ha, hb, ih]

/-- Claim C6: after `update_concours_info(numero, nom, date_debut, date_fin,
lieu)`, `get_concours_by_numero(numero)` returns the prior row with each
non-null provided field replaced by the provided value, each field provided as
null keeping its prior value, and every column outside the patch (`id`,
`numero`, `statut`, `notifie`, `last_check`, `created_at`) unchanged. -/
theorem c6_update_concours_info_frame (db : List ConcoursRow) (numero : Int)
    (nom date_debut date_fin lieu : Option String) (r : ConcoursRow)
    (h : get_concours_by_numero db numero = some r) :
    get_concours_by_numero
        (update_concours_info db numero nom date_debut date_fin lieu).1 numero =
      some { r with
             nom := nom.or r.nom
             date_debut := date_debut.or r.date_debut
             date_fin := date_fin.or r.date_fin
             lieu := lieu.or r.lieu } := by
  have := find?_map_keyed_update db numero (coalescePatch nom date_debut date_fin lieu)
    (fun r => rfl)
  simp only [get_concours_by_numero, update_concours_info] at *
  rw [this, h]
  rfl

/-- Witness for C6 at a concrete one-row table: patching `nom` and `lieu`
while leaving the dates null updates exactly those two columns. -/
theorem c6_update_concours_info_frame_witness :
    get_concours_by_numero
        [⟨1, 123456, none, "ferme", false, none, "2024-01-01", some "2024-03-01", none, none⟩]
        123456 =
      some ⟨1, 123456, none, "ferme", false, none, "2024-01-01", some "2024-03-01", none, none⟩ ∧
    get_concours_by_numero
        (update_concours_info
          [⟨1, 123456, none, "ferme", false, none, "2024-01-01", some "2024-03-01", none, none⟩]
          123456 (some "Grand Prix") none none (some "PARIS")).1 123456 =
      some ⟨1, 123456, some "Grand Prix", "ferme", false, none, "2024-01-01",
            some "2024-03-01", none, some "PARIS"⟩ :=
  ⟨rfl,
   c6_update_concours_info_frame
     [⟨1, 123456, none, "ferme", false, none, "2024-01-01", some "2024-03-01", none, none⟩]
     123456 (some "Grand Prix") none none (some "PARIS")
     ⟨1, 123456, none, "ferme", false, none, "2024-01-01", some "2024-03-01", none, none⟩
     rfl⟩

/-! ## `backend/services/surveillance.py`: the surveillance loop (claim C7)

`SurveillanceService.start` (lines 101-141) runs `_check_all_concours` once per
tick inside `try`/`except`; `_check_all_concours` (lines 148-172) wraps each
per-event check in its own `try`/`except`/`continue`.  A tick outcome and a
per-event outcome are modelled as `Except String Unit` (`error` = the Python
code raised); the loop body is modelled as a step function on the consecutive
error counter `_error_count`. -/

/-- `SurveillanceService.MAX_RETRIES` (line 69). -/
def MAX_RETRIES : Nat := 3

/-- `SurveillanceService.RETRY_DELAY` (line 70), seconds. -/
def RETRY_DELAY : Nat := 5

/-- What the loop body does after handling one tick, before the next
iteration of `while self._running`. -/
inductive LoopAction where
  /-- `await asyncio.sleep(self.check_interval)` after a successful tick. -/
  | sleep_interval
  /-- `await asyncio.sleep(self.RETRY_DELAY)` after a tick-level error below
  the threshold. -/
  | sleep_retry
  /-- `await asyncio.sleep(60)` after `MAX_RETRIES` consecutive errors. -/
  | sleep_backoff
  /-- `break` on `asyncio.CancelledError`. -/
  | halt
deriving DecidableEq

/-- Seconds slept by each action (`check_interval` defaults to 5). -/
def LoopAction.duration : LoopAction → Nat
  | .sleep_interval => 5
  | .sleep_retry => RETRY_DELAY
  | .sleep_backoff => 60
  | .halt => 0

/-- One iteration of the `while self._running` loop in
`SurveillanceService.start` (lines 113-138): given the current
`_error_count` and the outcome of `await self._check_all_concours()`,
return the new `_error_count` and the action taken.  `none` stands for
`asyncio.CancelledError`, `some e` for any other exception. -/
def surveillance_loop_step (error_count : Nat) :
    Except (Option String) Unit → Nat × LoopAction
  | .ok _ => (0, .sleep_interval)
  | .error none => (error_count, .halt)
  | .error (some _) =>
    let c := error_count + 1
    if MAX_RETRIES ≤ c then (0, .sleep_backoff) else (c, .sleep_retry)

/-- `SurveillanceService._check_all_concours` (lines 161-172): iterate the
watched list; each `_check_concours_scraper` call sits in `try`/`except`
`continue`, so a raising event still advances the loop.  The function returns
one boolean per event reached (`true` when that event's check did not raise).
`running` is `self._running`, checked before each event. -/
def check_all_concours (running : Bool) : List (Except String Unit) → List Bool
  | [] => []
  | e :: rest =>
    if running then
      (match e with
       | .ok _ => true
       | .error _ => false) :: check_all_concours running rest
    else []

/-- Claim C7: (1) while the service is running, every watched event is reached
in a tick regardless of which per-event checks raise, because per-event
exceptions are caught and `continue` is executed; (2) a successful tick resets
the consecutive-error counter to 0; (3) a tick-level exception below the
threshold increments the counter and sleeps `RETRY_DELAY`; (4) when the counter
reaches `MAX_RETRIES = 3`, the loop sleeps 60 seconds and resets the counter
to 0. -/
theorem c7_surveillance_loop_errors :
    (∀ events : List (Except String Unit),
      (check_all_concours true events).length = events.length) ∧
    (∀ ec : Nat, ∀ u : Unit, surveillance_loop_step ec (.ok u) = (0, .sleep_interval)) ∧
    (∀ ec : Nat, ∀ e : String, ec + 1 < MAX_RETRIES →
      surveillance_loop_step ec (.error (some e)) = (ec + 1, .sleep_retry)) ∧
    (∀ ec : Nat, ∀ e : String, MAX_RETRIES ≤ ec + 1 →
      surveillance_loop_step ec (.error (some e)) = (0, .sleep_backoff)) ∧
    LoopAction.sleep_backoff.duration = 60 := by
  refine ⟨?_, ?_, ?_, ?_, rfl⟩
  · intro events
    induction events with
    | nil => rfl
    | cons e rest ih => simp [check_all_concours, ih]
  · intro ec u
    rfl
  · intro ec e h
    simp [surveillance_loop_step, Nat.not_le.mpr h]
  · intro ec e h
    simp [surveillance_loop_step, h]

/-- Witness for C7: a tick over three events whose middle check raises still
reaches all three; from counters 0 and 2, a tick-level error sleeps
`RETRY_DELAY` and 60 s respectively. -/
theorem c7_surveillance_loop_errors_witness :
    (check_all_concours true [.ok (), .error "boom", .ok ()]).length = 3 ∧
    surveillance_loop_step 0 (.error (some "boom")) = (1, .sleep_retry) ∧
    surveillance_loop_step 2 (.error (some "boom")) = (0, .sleep_backoff) :=
  ⟨c7_surveillance_loop_errors.1 [.ok (), .error "boom", .ok ()],
   c7_surveillance_loop_errors.2.2.1 0 "boom" (by decide),
   c7_surveillance_loop_errors.2.2.2.1 2 "boom" (by decide)⟩

/-! ## `backend/services/scraper.py` / `surveillance.py`: the scraper poll path
(claims C1, C2)

`ConcoursInfo` is the dataclass returned by `FFEScraper.fetch_concours_info`
(`scraper.py`, lines 16-26).  Its fields are exactly `nom`, `lieu`,
`date_debut`, `date_fin`, `organisateur`, `discipline`, `is_open` — it defines
no `statut` field, yet `SurveillanceService._check_concours_scraper`
(`surveillance.py`, line 293) evaluates `info.statut`, which in Python raises
`AttributeError` on every call. -/

/-- The `ConcoursInfo` dataclass (`scraper.py`, lines 16-26). -/
structure ConcoursInfo where
  nom : Option String := none
  lieu : Option String := none
  date_debut : Option String := none
  date_fin : Option String := none
  organisateur : Option String := none
  discipline : Option String := none
  is_open : Bool := false
deriving DecidableEq

/-- The empty snapshot: a freshly constructed `ConcoursInfo()`. -/
def ConcoursInfo.empty : ConcoursInfo := {}

/-- A Python exception escaping an embedded function. -/
inductive PyErr where
  | attributeError (msg : String)
deriving DecidableEq

/-- The attribute access `info.statut`.  `ConcoursInfo` declares no field
named `statut`, so this access raises
`AttributeError: ConcoursInfo object has no attribute statut`
for every instance. -/
def ConcoursInfo.statutAttr (_ : ConcoursInfo) : Except PyErr (Option String) :=
  .error (.attributeError "ConcoursInfo object has no attribute statut")

/-- `StatutConcours` enum (`backend/models.py`, lines 11-21). -/
inductive StatutConcours where
  | previsionnel | engagement | demande | cloture | en_cours | termine | annule | ferme
deriving DecidableEq

/-- The `.value` string of each `StatutConcours` member. -/
def StatutConcours.value : StatutConcours → String
  | .previsionnel => "previsionnel"
  | .engagement => "engagement"
  | .demande => "demande"
  | .cloture => "cloture"
  | .en_cours => "en_cours"
  | .termine => "termine"
  | .annule => "annule"
  | .ferme => "ferme"

/-- `StatutConcours(s)`: the enum constructor, `none` when Python would raise
`ValueError` (`surveillance.py`, lines 343-347 catch that case with `pass`). -/
def StatutConcours.fromString? (s : String) : Option StatutConcours :=
  if s = "previsionnel" then some .previsionnel
  else if s = "engagement" then some .engagement
  else if s = "demande" then some .demande
  else if s = "cloture" then some .cloture
  else if s = "en_cours" then some .en_cours
  else if s = "termine" then some .termine
  else if s = "annule" then some .annule
  else if s = "ferme" then some .ferme
  else none

/-- Python truthiness of an optional string: `None` and the empty string are
falsy. -/
def pyTruthyStr : Option String → Bool
  | none => false
  | some s => s ≠ ""

/-- Python `x or default` for an optional string `x`. -/
def pyOrStr (x : Option String) (default : String) : String :=
  match x with
  | some s => if s = "" then default else s
  | none => default

/-- One database call issued by the scheduler while checking an event. -/
inductive DbOp where
  /-- `db.record_check(concours_numero, statut_before, statut_after,
  response_time_ms, success)` (the response time is not modelled). -/
  | record_check (concours_numero : Int) (statut_before statut_after : String) (success : Bool)
  /-- `db.update_concours_info(numero, nom, lieu, date_debut, date_fin)`. -/
  | update_info (numero : Int) (nom lieu date_debut date_fin : Option String)
  /-- `db.update_last_check(numero)`. -/
  | update_last_check (numero : Int)
  /-- `db.record_opening(concours_numero, statut, notification_sent_at)`;
  the boolean records whether a notification timestamp was attached. -/
  | record_opening (concours_numero : Int) (statut : String) (notified : Bool)
  /-- `db.update_statut(numero, statut, notifie)`. -/
  | update_statut (numero : Int) (statut : String) (notifie : Bool)
deriving DecidableEq

/-- `SurveillanceService._check_concours_scraper` (`surveillance.py`, lines
272-349), as the list of database operations it performs together with the
exception it lets escape, if any.  `info` is the snapshot returned by
`scraper.fetch_concours_info` (which never raises), and `notifSent` is the
outcome of `self.notifier.send_notification` (`some b` = returned `b`,
`none` = raised; the surrounding `try`/`except` maps a raise to
`notif_sent = False`).

Line 293 evaluates `info.statut`, an attribute `ConcoursInfo` does not define,
so the function raises `AttributeError` there — before `record_check` on line
296 and before the opening detection on line 318.  The remainder of the body
is embedded underneath the (never satisfied) success case of that attribute
access, with `statutVal` standing for the value `info.statut` would have
yielded. -/
def check_concours_scraper (concours : ConcoursRow) (info : ConcoursInfo)
    (notifSent : Option Bool) : List DbOp × Option PyErr :=
  -- line 281: `statut_before = concours.get("statut", "previsionnel")`
  -- (`_row_to_dict` always supplies the key, so the default is unreachable)
  let statut_before := concours.statut
  -- line 293: `statut_after = info.statut or "previsionnel"` — raises
  match info.statutAttr with
  | .error e => ([], some e)
  | .ok statutVal =>
    let statut_after := pyOrStr statutVal "previsionnel"
    -- lines 296-302: record_check(..., success=True) — unconditional
    let ops := [DbOp.record_check concours.numero statut_before statut_after true]
    -- lines 305-312: `if info.nom or info.lieu or info.date_debut`
    let ops := ops ++
      (if pyTruthyStr info.nom ∨ pyTruthyStr info.lieu ∨ pyTruthyStr info.date_debut then
        [DbOp.update_info concours.numero info.nom info.lieu info.date_debut info.date_fin]
      else [])
    -- line 315: update_last_check
    let ops := ops ++ [DbOp.update_last_check concours.numero]
    -- line 318: `if info.is_open and statut_before not in ("engagement", "demande")`
    if info.is_open ∧ statut_before ≠ "engagement" ∧ statut_before ≠ "demande" then
      let statut := if statutVal = some "engagement" then StatutConcours.engagement
                    else StatutConcours.demande
      let notif_sent := notifSent.getD false
      (ops ++ [DbOp.record_opening concours.numero statut.value notif_sent,
               DbOp.update_statut concours.numero statut.value notif_sent], none)
    -- line 341: `elif info.statut and info.statut != statut_before`
    else if pyTruthyStr statutVal ∧ pyOrStr statutVal "" ≠ statut_before then
      match StatutConcours.fromString? (pyOrStr statutVal "") with
      | some st => (ops ++ [DbOp.update_statut concours.numero st.value false], none)
      | none => (ops, none)
    else
      (ops, none)

/-- Claim C1 (code bug): the per-event check never emits an `Opened`
transition — for every stored row and every scraper snapshot, including
snapshots with `is_open = true` over a row whose status is neither
`engagement` nor `demande`, `_check_concours_scraper` raises `AttributeError`
at `info.statut` (line 293) and performs no database operation at all, so no
opening is ever logged and no status is ever stored. -/
theorem c1_check_raises_before_opened (concours : ConcoursRow) (info : ConcoursInfo)
    (notifSent : Option Bool) :
    check_concours_scraper concours info notifSent =
      ([], some (PyErr.attributeError "ConcoursInfo object has no attribute statut")) := rfl

/-- Recognizer for `record_check` operations. -/
def DbOp.isRecordCheck : DbOp → Bool
  | .record_check _ _ _ _ => true
  | _ => false

/-- Claim C2 (code bug): no poll attempt appends a `check_history` row — the
`AttributeError` of line 293 escapes before `record_check` (line 296) runs, so
the number of `record_check` operations per poll is 0, not 1.  (Had line 293
not raised, the call on lines 296-302 would moreover always pass
`success=True`, never `success=false`, as the embedded success branch of
`check_concours_scraper` records.) -/
theorem c2_no_check_history_row (concours : ConcoursRow) (info : ConcoursInfo)
    (notifSent : Option Bool) :
    ((check_concours_scraper concours info notifSent).1.countP
      (fun op => op.isRecordCheck)) = 0 := rfl

/-! ## Date normalization (claim C8)

Two functions are involved: `FFEScraper._normalize_date` (`scraper.py`, lines
209-224), which only reshapes `DD/MM/YYYY` into `YYYY-MM-DD` with anchored
`re.match`, and `SurveillanceService._parse_date` (`surveillance.py`, lines
474-504), which `re.search`es three date shapes and validates each candidate
with `datetime.fromisoformat`.  Python `$` matches at the end of the string or
just before one final newline; both behaviors are modelled. -/

/-- ASCII decimal digit (the ASCII fragment of Python `\d`). -/
def isAsciiDigit (c : Char) : Bool := '0' ≤ c ∧ c ≤ '9'

/-- Python `re.match` against a `^...$`-anchored pattern: the pattern must
cover the whole string, or the whole string minus one final newline. -/
def pyFullMatch (p : List Char → Bool) (s : String) : Bool :=
  p s.data || ((s.data.getLast? == some '\n') && p s.data.dropLast)

/-- Group extraction for a `^...$`-anchored `re.match`, with the same
final-newline allowance. -/
def pyAnchoredGroups {α : Type} (p : List Char → Option α) (s : String) : Option α :=
  match p s.data with
  | some g => some g
  | none => if s.data.getLast? == some '\n' then p s.data.dropLast else none

/-- The shape `^\d{4}-\d{2}-\d{2}$` (`scraper.py`, line 215). -/
def isoDateShape (cs : List Char) : Bool :=
  match cs with
  | [y1, y2, y3, y4, h1, m1, m2, h2, d1, d2] =>
    isAsciiDigit y1 && isAsciiDigit y2 && isAsciiDigit y3 && isAsciiDigit y4 &&
    (h1 == '-') && isAsciiDigit m1 && isAsciiDigit m2 && (h2 == '-') &&
    isAsciiDigit d1 && isAsciiDigit d2
  | _ => false

/-- Groups of `^(\d{1,2})/(\d{2})/(\d{4})$` (`scraper.py`, line 219): day,
month and year digit lists.  Being anchored with fixed-width month and year,
the day takes one digit on a 9-character subject and two on a 10-character
subject. -/
def ddmmyyyyGroups (cs : List Char) : Option (List Char × List Char × List Char) :=
  match cs with
  | [d1, s1, m1, m2, s2, y1, y2, y3, y4] =>
    if isAsciiDigit d1 && (s1 == '/') && isAsciiDigit m1 && isAsciiDigit m2 &&
        (s2 == '/') && isAsciiDigit y1 && isAsciiDigit y2 && isAsciiDigit y3 &&
        isAsciiDigit y4 then
      some ([d1], [m1, m2], [y1, y2, y3, y4])
    else none
  | [d1, d2, s1, m1, m2, s2, y1, y2, y3, y4] =>
    if isAsciiDigit d1 && isAsciiDigit d2 && (s1 == '/') && isAsciiDigit m1 &&
        isAsciiDigit m2 && (s2 == '/') && isAsciiDigit y1 && isAsciiDigit y2 &&
        isAsciiDigit y3 && isAsciiDigit y4 then
      some ([d1, d2], [m1, m2], [y1, y2, y3, y4])
    else none
  | _ => none

/-- `day.zfill(2)` for a 1- or 2-digit day. -/
def zfill2 (cs : List Char) : List Char :=
  match cs with
  | [c] => ['0', c]
  | l => l

/-- `FFEScraper._normalize_date` (`scraper.py`, lines 209-224): empty strings
yield `None`; an already-ISO string is returned unchanged; a `DD/MM/YYYY`
string is reshaped to `f"{year}-{month}-{day.zfill(2)}"`; anything else yields
`None`.  No calendar validation is performed. -/
def normalize_date (date_str : String) : Option String :=
  if date_str = "" then none
  else if pyFullMatch isoDateShape date_str then some date_str
  else
    match pyAnchoredGroups ddmmyyyyGroups date_str with
    | some (day, month, year) =>
      some (String.mk year ++ "-" ++ String.mk month ++ "-" ++ String.mk (zfill2 day))
    | none => none

/-- Numeric value of a digit list, most significant first. -/
def decodeDigits (cs : List Char) : Nat :=
  cs.foldl (fun a c => a * 10 + (c.toNat - 48)) 0

/-- Gregorian leap year, as implemented by Python `datetime`. -/
def isLeapYear (y : Nat) : Bool := y % 4 == 0 && (y % 100 != 0 || y % 400 == 0)

/-- Days in a month, as implemented by Python `datetime`. -/
def daysInMonth (y m : Nat) : Nat :=
  if m = 2 then (if isLeapYear y then 29 else 28)
  else if m = 4 ∨ m = 6 ∨ m = 9 ∨ m = 11 then 30
  else 31

/-- Python `datetime` range checks: `MINYEAR = 1`, `MAXYEAR = 9999`, the month
in `1..12` and the day within the month. -/
def validDate (y m d : Nat) : Bool :=
  1 ≤ y && y ≤ 9999 && 1 ≤ m && m ≤ 12 && 1 ≤ d && d ≤ daysInMonth y m

/-- Decode a `YYYY-MM-DD`-shaped string into its numeric year, month and
day. -/
def decodeIso (s : String) : Option (Nat × Nat × Nat) :=
  match s.data with
  | [y1, y2, y3, y4, h1, m1, m2, h2, d1, d2] =>
    if isAsciiDigit y1 && isAsciiDigit y2 && isAsciiDigit y3 && isAsciiDigit y4 &&
        (h1 == '-') && isAsciiDigit m1 && isAsciiDigit m2 && (h2 == '-') &&
        isAsciiDigit d1 && isAsciiDigit d2 then
      some (decodeDigits [y1, y2, y3, y4], decodeDigits [m1, m2], decodeDigits [d1, d2])
    else none
  | _ => none

/-- `datetime.fromisoformat(s)` restricted to the 10-character candidates that
`_parse_date` constructs: succeeds exactly when the string is `YYYY-MM-DD`
shaped and denotes a valid calendar date. -/
def fromisoformatOk (s : String) : Bool :=
  match decodeIso s with
  | some (y, m, d) => validDate y m d
  | none => false

/-- First match of `(\d{2})/(\d{2})/(\d{4})` under `re.search`: try each start
position left to right; the pattern is fixed-width, so a start either matches
deterministically or fails. -/
def searchDDMMslash : List Char → Option (List Char × List Char × List Char)
  | [] => none
  | c :: rest =>
    match c :: rest with
    | d1 :: d2 :: s1 :: m1 :: m2 :: s2 :: y1 :: y2 :: y3 :: y4 :: _ =>
      if isAsciiDigit d1 && isAsciiDigit d2 && (s1 == '/') && isAsciiDigit m1 &&
          isAsciiDigit m2 && (s2 == '/') && isAsciiDigit y1 && isAsciiDigit y2 &&
          isAsciiDigit y3 && isAsciiDigit y4 then
        some ([d1, d2], [m1, m2], [y1, y2, y3, y4])
      else searchDDMMslash rest
    | _ => searchDDMMslash rest

/-- First match of `(\d{4})-(\d{2})-(\d{2})` under `re.search`, returning the
matched text (the formatter uses `m.group(0)`). -/
def searchIsoDash : List Char → Option (List Char)
  | [] => none
  | c :: rest =>
    match c :: rest with
    | y1 :: y2 :: y3 :: y4 :: s1 :: m1 :: m2 :: s2 :: d1 :: d2 :: _ =>
      if isAsciiDigit y1 && isAsciiDigit y2 && isAsciiDigit y3 && isAsciiDigit y4 &&
          (s1 == '-') && isAsciiDigit m1 && isAsciiDigit m2 && (s2 == '-') &&
          isAsciiDigit d1 && isAsciiDigit d2 then
        some [y1, y2, y3, y4, s1, m1, m2, s2, d1, d2]
      else searchIsoDash rest
    | _ => searchIsoDash rest

/-- First match of `(\d{2})-(\d{2})-(\d{4})` under `re.search`. -/
def searchDDMMdash : List Char → Option (List Char × List Char × List Char)
  | [] => none
  | c :: rest =>
    match c :: rest with
    | d1 :: d2 :: s1 :: m1 :: m2 :: s2 :: y1 :: y2 :: y3 :: y4 :: _ =>
      if isAsciiDigit d1 && isAsciiDigit d2 && (s1 == '-') && isAsciiDigit m1 &&
          isAsciiDigit m2 && (s2 == '-') && isAsciiDigit y1 && isAsciiDigit y2 &&
          isAsciiDigit y3 && isAsciiDigit y4 then
        some ([d1, d2], [m1, m2], [y1, y2, y3, y4])
      else searchDDMMdash rest
    | _ => searchDDMMdash rest

/-- The `try: datetime.fromisoformat(date_iso); return date_iso / except
ValueError: continue` block of `_parse_date`: keep the candidate when the
validation succeeds. -/
def checkedIso (cand : String) : Option String :=
  if fromisoformatOk cand then some cand else none

/-- `SurveillanceService._parse_date` (`surveillance.py`, lines 474-504): try
the three patterns in order; for each, take the first `re.search` match,
format the candidate ISO string, and return it if `datetime.fromisoformat`
accepts it; a `ValueError` falls through (`continue`) to the next pattern. -/
def parse_date (date_str : String) : Option String :=
  let try1 : Option String :=
    match searchDDMMslash date_str.data with
    | some (d, m, y) => checkedIso (String.mk y ++ "-" ++ String.mk m ++ "-" ++ String.mk d)
    | none => none
  let try2 : Option String :=
    match searchIsoDash date_str.data with
    | some whole => checkedIso (String.mk whole)
    | none => none
  let try3 : Option String :=
    match searchDDMMdash date_str.data with
    | some (d, m, y) => checkedIso (String.mk y ++ "-" ++ String.mk m ++ "-" ++ String.mk d)
    | none => none
  (try1.orElse (fun _ => try2)).orElse (fun _ => try3)

/-- Anything `checkedIso` returns decodes to a valid calendar date. -/
theorem checkedIso_valid (c r : String) (h : checkedIso c = some r) :
    ∃ y m d : Nat, decodeIso r = some (y, m, d) ∧ validDate y m d = true := by
  unfold checkedIso at h
  by_cases hok : fromisoformatOk c = true
  · rw [if_pos hok] at h
    have hcr : c = r := by injection h
    subst hcr
    unfold fromisoformatOk at hok
    rcases hd : decodeIso c with _ | ⟨y, m, d⟩ <;> rw [hd] at hok
    · cases hok
    · exact ⟨y, m, d, rfl, hok⟩
  · rw [if_neg hok] at h
    cases h

/-- A three-way `orElse` chain whose arms all satisfy a predicate on their
`some` results satisfies it as well. -/
theorem orElse3_valid {p : String → Prop} (a b c : Option String)
    (ha : ∀ r, a = some r → p r) (hb : ∀ r, b = some r → p r)
    (hc : ∀ r, c = some r → p r) (r : String)
    (h : (a.orElse (fun _ => b)).orElse (fun _ => c) = some r) : p r := by
  rcases a with _ | va
  · rcases b with _ | vb
    · exact hc r h
    · exact hb r h
  · exact ha r h

/-- The character of a decimal digit. -/
def digitChar (n : Fin 10) : Char := Char.ofNat (48 + n)

/-- Digit characters are ASCII digits. -/
theorem isAsciiDigit_digitChar (n : Fin 10) : isAsciiDigit (digitChar n) = true := by
  fin_cases n <;> rfl

/-- Digit characters are not the hyphen. -/
theorem digitChar_beq_dash (n : Fin 10) : (digitChar n == '-') = false := by
  fin_cases n <;> rfl

/-- Digit characters are not the newline. -/
theorem digitChar_beq_nl (n : Fin 10) : (digitChar n == '\n') = false := by
  fin_cases n <;> rfl

/-- Claim C8, counterexample to the claim as stated: `32/13/2024` is not a
valid calendar date, yet `_normalize_date` converts it to the malformed ISO
string `2024-13-32` instead of yielding `None` (`fromisoformat` would reject
that string). -/
theorem c8_normalize_date_no_validation :
    normalize_date "32/13/2024" = some "2024-13-32" ∧
    fromisoformatOk "2024-13-32" = false := by
  exact ⟨rfl, rfl⟩

/-- Claim C8, amended: `_normalize_date` maps every `DD/MM/YYYY`-shaped input
to `YYYY-MM-DD` with the same digits, performing format conversion only — no
calendar validation (out-of-range components are converted, not rejected);
`_parse_date`, by contrast, validates through `datetime.fromisoformat`, so any
date string it returns is a `YYYY-MM-DD` encoding of a valid calendar date,
and inputs with no valid date yield `None` rather than an error. -/
theorem c8_date_normalization_amended :
    (∀ d1 d2 m1 m2 y1 y2 y3 y4 : Fin 10,
      normalize_date ⟨[digitChar d1, digitChar d2, '/', digitChar m1, digitChar m2, '/',
                       digitChar y1, digitChar y2, digitChar y3, digitChar y4]⟩ =
        some ⟨[digitChar y1, digitChar y2, digitChar y3, digitChar y4, '-',
               digitChar m1, digitChar m2, '-', digitChar d1, digitChar d2]⟩) ∧
    (∀ s r : String, parse_date s = some r →
      ∃ y m d : Nat, decodeIso r = some (y, m, d) ∧ validDate y m d = true) := by
  constructor
  · intro d1 d2 m1 m2 y1 y2 y3 y4
    simp [normalize_date, pyFullMatch, pyAnchoredGroups, isoDateShape, ddmmyyyyGroups,
          zfill2, isAsciiDigit_digitChar, digitChar_beq_dash, digitChar_beq_nl,
          String.ext_iff]
  · intro s r h
    unfold parse_date at h
    refine orElse3_valid
      (p := fun r => ∃ y m d : Nat, decodeIso r = some (y, m, d) ∧ validDate y m d = true)
      _ _ _ ?_ ?_ ?_ r h
    · intro r1 h1
      rcases hs : searchDDMMslash s.data with _ | ⟨d, m, y⟩ <;> rw [hs] at h1
      · cases h1
      · exact checkedIso_valid _ _ h1
    · intro r1 h1
      rcases hs : searchIsoDash s.data with _ | w <;> rw [hs] at h1
      · cases h1
      · exact checkedIso_valid _ _ h1
    · intro r1 h1
      rcases hs : searchDDMMdash s.data with _ | ⟨d, m, y⟩ <;> rw [hs] at h1
      · cases h1
      · exact checkedIso_valid _ _ h1

/-- Witness for C8: `_parse_date` on `15/01/2024` returns `2024-01-15`, which
decodes to the valid calendar date (2024, 1, 15). -/
theorem c8_date_normalization_amended_witness :
    ∃ y m d : Nat, decodeIso "2024-01-15" = some (y, m, d) ∧ validDate y m d = true :=
  c8_date_normalization_amended.2 "15/01/2024" "2024-01-15" rfl

/-! ## API boundary validation of event numbers (claim C9)

`ConcoursCreate` (`backend/models.py`, lines 24-33) declares
`numero: int = Field(..., gt=0)`, so the JSON-body creation endpoint rejects
`numero <= 0` with a 422 validation error.  The subscription endpoint
`POST /subscriptions/{numero}` (`backend/routers/subscriptions.py`, lines
118-155) declares its path parameter as a bare `numero: int` with no
constraint, and calls `supabase.get_concours(numero)`,
`supabase.upsert_concours({numero, ...})` and
`supabase.subscribe_to_concours(user.id, numero)` with whatever integer was
parsed. -/

/-- Pydantic validation of the `ConcoursCreate` body model: `Field(..., gt=0)`
accepts the payload exactly when `numero > 0`. -/
def concoursCreateValid (numero : Int) : Bool := 0 < numero

/-- A call into the Supabase repository layer issued by the subscription
endpoint. -/
inductive SupaOp where
  | get_concours (numero : Int)
  | upsert_concours (numero : Int)
  | subscribe (user_id : String) (numero : Int)
deriving DecidableEq

/-- `subscribe_to_concours` (`backend/routers/subscriptions.py`, lines
118-155): look the event up, create it with minimal fields when absent, then
create the subscription; 409 when the subscription already existed, else 201.
`existing` is the truthiness of `supabase.get_concours(numero)` and
`subscribed` the boolean returned by `supabase.subscribe_to_concours`.  The
path parameter reaches this handler validated only as an integer. -/
def subscribe_to_concours (user_id : String) (numero : Int)
    (existing subscribed : Bool) : List SupaOp × Nat :=
  let ops := [SupaOp.get_concours numero]
  let ops := ops ++ (if existing then [] else [SupaOp.upsert_concours numero])
  let ops := ops ++ [SupaOp.subscribe user_id numero]
  (ops, if subscribed then 201 else 409)

/-- Claim C9, counterexample to the claim as stated: a subscription request
with event number 0 is not rejected at the API boundary — the handler runs,
invokes all three core repository operations with `numero = 0`, and answers
201. -/
theorem c9_subscribe_zero_reaches_core :
    subscribe_to_concours "user-1" 0 false true =
      ([SupaOp.get_concours 0, SupaOp.upsert_concours 0, SupaOp.subscribe "user-1" 0], 201) :=
  rfl

/-- Claim C9, amended: requests through the body-validated creation endpoint
(`ConcoursCreate`) are rejected with a validation error exactly when the event
number is 0 or negative; the subscription endpoint validates its path
parameter only as an integer, so a subscribe request with any integer event
number — including 0 and negatives — reaches the core repository operations
carrying that number. -/
theorem c9_boundary_validation_amended :
    (∀ numero : Int, concoursCreateValid numero = true ↔ 0 < numero) ∧
    (∀ (u : String) (numero : Int) (existing subscribed : Bool),
      SupaOp.get_concours numero ∈ (subscribe_to_concours u numero existing subscribed).1 ∧
      SupaOp.subscribe u numero ∈ (subscribe_to_concours u numero existing subscribed).1) := by
  constructor
  · intro numero
    simp [concoursCreateValid]
  · intro u numero existing subscribed
    cases existing <;> simp [subscribe_to_concours]

/-! ## A small regex engine for the `FFEScraper` patterns (claim C3)

`FFEScraper` extracts fields with `re.search` / `re.findall` over a fixed set
of patterns.  The patterns are transliterated into the `Re` AST below and run
by a backtracking matcher: greedy repetition tries the longest expansion
first, lazy repetition the shortest, alternation the left branch first —
Python (`re`) ordering.  `IGNORECASE` is modelled over the Latin-1 case
mapping.  The matcher carries explicit fuel bounding the recursion depth; the
bound chosen is generous for the patterns used, whose repeated sub-patterns
each consume at least one character. -/

/-- Python whitespace `\s` (ASCII fragment). -/
def isPySpace (c : Char) : Bool :=
  c == ' ' || c == '\t' || c == '\n' || c == '\r' || c == '\x0b' || c == '\x0c'

/-- Python `str.upper` on one character (Latin-1 fragment), used for
case-insensitive class matching. -/
def pyCharUpper (c : Char) : Char :=
  if 'a' ≤ c ∧ c ≤ 'z' then Char.ofNat (c.toNat - 32)
  else if 'à' ≤ c ∧ c ≤ 'þ' ∧ c ≠ '÷' then Char.ofNat (c.toNat - 32)
  else c

/-- Python `\w` (Latin-1 fragment): ASCII alphanumerics, underscore, and the
Latin-1 letters. -/
def isWordChar (c : Char) : Bool :=
  ('a' ≤ c && c ≤ 'z') || ('A' ≤ c && c ≤ 'Z') || ('0' ≤ c && c ≤ '9') || c == '_' ||
  ('À' ≤ c && c ≤ 'ÿ' && c != '×' && c != '÷')

/-- Regex AST covering the constructs appearing in the `FFEScraper`
patterns. -/
inductive Re where
  /-- The empty pattern. -/
  | eps
  /-- A literal character. -/
  | lit (c : Char)
  /-- A character class, a union of inclusive ranges, possibly negated. -/
  | cls (neg : Bool) (ranges : List (Char × Char))
  /-- Concatenation. -/
  | seq (a b : Re)
  /-- Alternation, left branch preferred. -/
  | alt (a b : Re)
  /-- Bounded repetition `{lo,hi}`, greedy or lazy. -/
  | rep (e : Re) (lo hi : Nat) (lazy : Bool)
  /-- Unbounded repetition `*`, greedy or lazy. -/
  | star (e : Re) (lazy : Bool)
  /-- The single capturing group of a pattern. -/
  | grp (e : Re)
  /-- Word boundary `\b`. -/
  | wordB
  /-- `$`: end of subject, or just before one final newline. -/
  | eos

/-- The literal pattern spelling a string. -/
def Re.lits (s : String) : Re :=
  (s.data.map Re.lit).foldr Re.seq Re.eps

/-- `X+` as `X` then `X*`. -/
def rePlus (e : Re) (lazy : Bool) : Re := .seq e (.star e lazy)

/-- `X?`. -/
def reOpt (e : Re) : Re := .rep e 0 1 false

/-- Character membership in a list of inclusive ranges. -/
def inRanges (ranges : List (Char × Char)) (c : Char) : Bool :=
  ranges.any (fun r => r.1 ≤ c && c ≤ r.2)

/-- Literal match under optional `IGNORECASE`. -/
def chEq (ci : Bool) (p c : Char) : Bool :=
  if ci then pyCharLower p == pyCharLower c else p == c

/-- Class match under optional `IGNORECASE`: the character or one of its case
variants must fall in the ranges (then negation is applied). -/
def clsMatch (ci : Bool) (neg : Bool) (ranges : List (Char × Char)) (c : Char) : Bool :=
  let hit := inRanges ranges c ||
    (ci && (inRanges ranges (pyCharLower c) || inRanges ranges (pyCharUpper c)))
  if neg then !hit else hit

/-- Backtracking matcher.  `reMtch ci s fuel e i cap k` tries to match `e` at
index `i` of `s` with current group capture `cap`, calling the continuation
`k` with the index past the match; the first success in Python preference
order wins.  A success carries the subject index reached and the capture. -/
def reMtch (ci : Bool) (s : Array Char) :
    Nat → Re → Nat → Option (Nat × Nat) →
    (Nat → Option (Nat × Nat) → Option (Nat × Option (Nat × Nat))) →
    Option (Nat × Option (Nat × Nat))
  | 0, _, _, _, _ => none
  | fuel + 1, e, i, cap, k =>
    match e with
    | .eps => k i cap
    | .lit c =>
      if h : i < s.size then
        if chEq ci c (s.get ⟨i, h⟩) then k (i + 1) cap else none
      else none
    | .cls neg ranges =>
      if h : i < s.size then
        if clsMatch ci neg ranges (s.get ⟨i, h⟩) then k (i + 1) cap else none
      else none
    | .seq a b => reMtch ci s fuel a i cap (fun j c2 => reMtch ci s fuel b j c2 k)
    | .alt a b =>
      match reMtch ci s fuel a i cap k with
      | some r => some r
      | none => reMtch ci s fuel b i cap k
    | .rep e1 lo hi lazy =>
      if 0 < lo then
        reMtch ci s fuel e1 i cap
          (fun j c2 => reMtch ci s fuel (.rep e1 (lo - 1) (hi - 1) lazy) j c2 k)
      else if hi = 0 then k i cap
      else if lazy then
        match k i cap with
        | some r => some r
        | none =>
          reMtch ci s fuel e1 i cap
            (fun j c2 => reMtch ci s fuel (.rep e1 0 (hi - 1) lazy) j c2 k)
      else
        match reMtch ci s fuel e1 i cap
            (fun j c2 => reMtch ci s fuel (.rep e1 0 (hi - 1) lazy) j c2 k) with
        | some r => some r
        | none => k i cap
    | .star e1 lazy =>
      if lazy then
        match k i cap with
        | some r => some r
        | none => reMtch ci s fuel e1 i cap (fun j c2 => reMtch ci s fuel (.star e1 lazy) j c2 k)
      else
        match reMtch ci s fuel e1 i cap
            (fun j c2 => reMtch ci s fuel (.star e1 lazy) j c2 k) with
        | some r => some r
        | none => k i cap
    | .grp e1 => reMtch ci s fuel e1 i cap (fun j _ => k j (some (i, j)))
    | .wordB =>
      let left := if h : i - 1 < s.size then 0 < i && isWordChar (s.get ⟨i - 1, h⟩) else false
      let right := if h : i < s.size then isWordChar (s.get ⟨i, h⟩) else false
      if left != right then k i cap else none
    | .eos =>
      if i = s.size then k i cap
      else if h : i + 1 = s.size ∧ i < s.size then
        if s.get ⟨i, h.2⟩ == '\n' then k i cap else none
      else none

/-- Recursion-depth budget of a pattern: enough levels for every unfolding of
its repetitions over one subject position. -/
def Re.fuelBound : Re → Nat
  | .eps => 1
  | .lit _ => 1
  | .cls _ _ => 1
  | .seq a b => a.fuelBound + b.fuelBound + 1
  | .alt a b => a.fuelBound + b.fuelBound + 1
  | .rep e _ hi _ => (hi + 1) * (e.fuelBound + 2) + 1
  | .star e _ => e.fuelBound + 2
  | .grp e => e.fuelBound + 1
  | .wordB => 1
  | .eos => 1

/-- Fuel for matching `e` anywhere in `s`: pattern budget scaled by the
subject length (every repetition of the patterns used consumes at least one
character). -/
def fuelFor (e : Re) (s : Array Char) : Nat := (e.fuelBound + 2) * (s.size + 2) + 1

/-- A regex match: subject span plus the span of the capturing group. -/
structure ReM where
  startIdx : Nat
  stopIdx : Nat
  cap : Option (Nat × Nat)

/-- Leftmost match at or after position `p` (`remaining` counts the start
positions still to try). -/
def reSearchAux (ci : Bool) (e : Re) (s : Array Char) : Nat → Nat → Option ReM
  | 0, _ => none
  | rem + 1, p =>
    match reMtch ci s (fuelFor e s) e p none (fun j c => some (j, c)) with
    | some (j, cap) => some ⟨p, j, cap⟩
    | none => reSearchAux ci e s rem (p + 1)

/-- Python `re.search`: leftmost match. -/
def reSearch (ci : Bool) (e : Re) (s : Array Char) : Option ReM :=
  reSearchAux ci e s (s.size + 1) 0

/-- Python `re.findall`: non-overlapping matches left to right, resuming after
each match (one position further for an empty match). -/
def reFindAllAux (ci : Bool) (e : Re) (s : Array Char) : Nat → Nat → List ReM
  | 0, _ => []
  | rem + 1, p =>
    match reSearchAux ci e s (s.size + 1 - p) p with
    | some m => m :: reFindAllAux ci e s rem (if p < m.stopIdx then m.stopIdx else p + 1)
    | none => []

/-- All matches of `e` in `s`. -/
def reFindAll (ci : Bool) (e : Re) (s : Array Char) : List ReM :=
  reFindAllAux ci e s (s.size + 1) 0

/-- The substring of `s` between two indices. -/
def arrSub (s : Array Char) (a b : Nat) : String :=
  String.mk ((s.toList.drop a).take (b - a))

/-- Python `str.strip()` (ASCII whitespace fragment). -/
def pyStrip (s : String) : String :=
  String.mk (((s.data.dropWhile isPySpace).reverse.dropWhile isPySpace).reverse)

/-- `re.sub(r'\s+', ' ', s)`: each maximal whitespace run becomes one
space. -/
def collapseWsAux : List Char → List Char
  | [] => []
  | c :: rest =>
    if isPySpace c then ' ' :: collapseWsAux (rest.dropWhile isPySpace)
    else c :: collapseWsAux rest
termination_by l => l.length
decreasing_by
  · exact Nat.lt_succ_of_le ((List.dropWhile_sublist _).length_le)
  · exact Nat.lt_succ_of_le (Nat.le_refl _)

/-- `re.sub(r'\s+', ' ', s)` on strings. -/
def collapseWs (s : String) : String := String.mk (collapseWsAux s.data)

/-- Python `str.replace(old, new)` with a nonempty `old`: non-overlapping
replacement left to right. -/
def pyReplaceAux (o : Char) (os newL : List Char) : List Char → List Char
  | [] => []
  | c :: rest =>
    if (o :: os).isPrefixOf (c :: rest) then
      newL ++ pyReplaceAux o os newL (rest.drop os.length)
    else c :: pyReplaceAux o os newL rest
termination_by l => l.length
decreasing_by
  · simp only [List.length_cons, List.length_drop]
    omega
  · exact Nat.lt_succ_of_le (Nat.le_refl _)

/-- Python `str.replace` on strings (`old` nonempty). -/
def pyReplace (s old new : String) : String :=
  match old.data with
  | [] => s
  | o :: os => String.mk (pyReplaceAux o os new.data s.data)

/-! ### The `FFEScraper.PATTERNS` regexes (`scraper.py`, lines 45-85) -/

/-- `\s` as a class. -/
def wsCls : Re :=
  .cls false [(' ', ' '), ('\t', '\t'), ('\n', '\n'), ('\r', '\r'),
              ('\x0b', '\x0b'), ('\x0c', '\x0c')]

/-- `\s*`. -/
def wsStar : Re := .star wsCls false

/-- `\s+`. -/
def wsPlus : Re := rePlus wsCls false

/-- `\d` as a class. -/
def digitCls : Re := .cls false [('0', '9')]

/-- The apostrophe character (U+0027). -/
def apoChar : Char := Char.ofNat 39

/-- The class `[A-Za-zÀ-ÿ\s\-\']` used by the venue and organizer
patterns. -/
def frTextCls : Re :=
  .cls false [('A', 'Z'), ('a', 'z'), ('À', 'ÿ'), (' ', ' '), ('\t', '\t'),
              ('\n', '\n'), ('\r', '\r'), ('\x0b', '\x0b'), ('\x0c', '\x0c'),
              ('-', '-'), (apoChar, apoChar)]

/-- `([A-ZÀ-Ÿ][^<\n]{10,80}?)\s*Organis[ée]\s+par` — name before
`Organisé par`. -/
def nomPat1 : Re :=
  .seq (.grp (.seq (.cls false [('A', 'Z'), ('À', 'Ÿ')])
                   (.rep (.cls true [('<', '<'), ('\n', '\n')]) 10 80 true)))
    (.seq wsStar (.seq (Re.lits "Organis")
      (.seq (.cls false [('é', 'é'), ('e', 'e')]) (.seq wsPlus (Re.lits "par")))))

/-- `>([^<]*(?:Championnat|Grand Prix|Derby|Challenge)[^<]{5,50})<` — name
containing a known keyword. -/
def nomPat2 : Re :=
  .seq (.lit '>')
    (.seq (.grp (.seq (.star (.cls true [('<', '<')]) false)
      (.seq (.alt (Re.lits "Championnat")
                  (.alt (Re.lits "Grand Prix") (.alt (Re.lits "Derby") (Re.lits "Challenge"))))
        (.rep (.cls true [('<', '<')]) 5 50 false))))
      (.lit '<'))

/-- `Intitul[ée][^:]*:\s*([^<\n]+)`. -/
def nomPat3 : Re :=
  .seq (Re.lits "Intitul")
    (.seq (.cls false [('é', 'é'), ('e', 'e')])
      (.seq (.star (.cls true [(':', ':')]) false)
        (.seq (.lit ':')
          (.seq wsStar (.grp (rePlus (.cls true [('<', '<'), ('\n', '\n')]) false))))))

/-- `<title>[^-]+-\s*([A-ZÀ-Ÿ][A-Za-zÀ-ÿ\s\-\']+?)(?:\s*-|\s*<|\s*$)` — venue
from the page title. -/
def lieuTitlePat1 : Re :=
  .seq (Re.lits "<title>")
    (.seq (rePlus (.cls true [('-', '-')]) false)
      (.seq (.lit '-')
        (.seq wsStar
          (.seq (.grp (.seq (.cls false [('A', 'Z'), ('À', 'Ÿ')]) (rePlus frTextCls true)))
            (.alt (.seq wsStar (.lit '-'))
                  (.alt (.seq wsStar (.lit '<')) (.seq wsStar .eos)))))))

/-- `Fiche Concours[^-]+-\s*([A-ZÀ-Ÿ][A-Za-zÀ-ÿ\s\-\']+)`. -/
def lieuTitlePat2 : Re :=
  .seq (Re.lits "Fiche Concours")
    (.seq (rePlus (.cls true [('-', '-')]) false)
      (.seq (.lit '-')
        (.seq wsStar
          (.grp (.seq (.cls false [('A', 'Z'), ('À', 'Ÿ')]) (rePlus frTextCls false))))))

/-- `(\d{5}\s+[A-ZÀ-Ÿ][A-Za-zÀ-ÿ\s\-\']+)` — postal code and city. -/
def adressePat1 : Re :=
  .grp (.seq (.rep digitCls 5 5 false)
    (.seq wsPlus (.seq (.cls false [('A', 'Z'), ('À', 'Ÿ')]) (rePlus frTextCls false))))

/-- `<span[^>]*class="[^"]*adresse[^"]*"[^>]*>([^<]+)</span>`. -/
def adressePat2 : Re :=
  .seq (Re.lits "<span")
    (.seq (.star (.cls true [('>', '>')]) false)
      (.seq (Re.lits "class=") (.seq (.lit '"')
        (.seq (.star (.cls true [('"', '"')]) false)
          (.seq (Re.lits "adresse")
            (.seq (.star (.cls true [('"', '"')]) false)
              (.seq (.lit '"')
                (.seq (.star (.cls true [('>', '>')]) false)
                  (.seq (.lit '>')
                    (.seq (.grp (rePlus (.cls true [('<', '<')]) false))
                      (Re.lits "</span>")))))))))))

/-- `(\d{2}/\d{2}/\d{4})` — the date pattern. -/
def datePat : Re :=
  .grp (.seq (.rep digitCls 2 2 false)
    (.seq (.lit '/') (.seq (.rep digitCls 2 2 false) (.seq (.lit '/') (.rep digitCls 4 4 false)))))

/-- `Organisateur[^:]*:\s*([^<\n]+)`. -/
def orgPat1 : Re :=
  .seq (Re.lits "Organisateur")
    (.seq (.star (.cls true [(':', ':')]) false)
      (.seq (.lit ':')
        (.seq wsStar (.grp (rePlus (.cls true [('<', '<'), ('\n', '\n')]) false)))))

/-- `>([A-ZÀ-Ÿ][A-Za-zÀ-ÿ\s\-\']+)\s*\(\d+\)`. -/
def orgPat2 : Re :=
  .seq (.lit '>')
    (.seq (.grp (.seq (.cls false [('A', 'Z'), ('À', 'Ÿ')]) (rePlus frTextCls false)))
      (.seq wsStar (.seq (.lit '(') (.seq (rePlus digitCls false) (.lit ')')))))

/-- `[Oo]uvert(?:e)?(?:s)?\s+aux\s+engagements`. -/
def ouvertPat1 : Re :=
  .seq (.cls false [('O', 'O'), ('o', 'o')])
    (.seq (Re.lits "uvert")
      (.seq (reOpt (.lit 'e')) (.seq (reOpt (.lit 's'))
        (.seq wsPlus (.seq (Re.lits "aux") (.seq wsPlus (Re.lits "engagements")))))))

/-- `[Ee]ngagements?\s+ouverts?`. -/
def ouvertPat2 : Re :=
  .seq (.cls false [('E', 'E'), ('e', 'e')])
    (.seq (Re.lits "ngagement")
      (.seq (reOpt (.lit 's')) (.seq wsPlus (.seq (Re.lits "ouvert") (reOpt (.lit 's'))))))

/-- `[Ii]nscriptions?\s+ouvertes?`. -/
def ouvertPat3 : Re :=
  .seq (.cls false [('I', 'I'), ('i', 'i')])
    (.seq (Re.lits "nscription")
      (.seq (reOpt (.lit 's')) (.seq wsPlus (.seq (Re.lits "ouverte") (reOpt (.lit 's'))))))

/-- `\b{code}\s+(?:Amateur|Club|Pro|Poney)` — discipline code followed by a
level qualifier (`_extract_discipline`, line 256). -/
def discPat (code : String) : Re :=
  .seq .wordB
    (.seq (Re.lits code)
      (.seq wsPlus
        (.alt (Re.lits "Amateur") (.alt (Re.lits "Club") (.alt (Re.lits "Pro") (Re.lits "Poney"))))))

/-! ### The extraction functions (`scraper.py`, lines 152-272) -/

/-- The group-1 strings of a `findall`, in order (Python `re.findall` with one
capturing group returns the group strings). -/
def findAllGroups (ci : Bool) (p : Re) (arr : Array Char) : List String :=
  (reFindAll ci p arr).filterMap (fun m => m.cap.map (fun g => arrSub arr g.1 g.2))

/-- The group-1 string of the leftmost match, if any. -/
def searchGroup (ci : Bool) (p : Re) (arr : Array Char) : Option String :=
  (reSearch ci p arr).bind (fun m => m.cap.map (fun g => arrSub arr g.1 g.2))

/-- The name cleanup of `_extract_nom` (lines 160-164): strip, collapse
whitespace, decode `&amp;` and `&#39;`. -/
def cleanNom (raw : String) : String :=
  let nom := collapseWs (pyStrip raw)
  let nom := pyReplace nom "&amp;" "&"
  pyReplace nom "&#39;" (String.mk [apoChar])

/-- Python substring containment: `needle in hay`. -/
def containsSub (needle : List Char) : List Char → Bool
  | [] => needle.isEmpty
  | c :: rest => needle.isPrefixOf (c :: rest) || containsSub needle rest

/-- The exclusion list of `_extract_nom` (line 155). -/
def nomExclusions : List String := ["ffe compet", "ffecompet", "fiche concours"]

/-- The acceptance test of `_extract_nom` (lines 166-169): longer than 10
characters and free of the generic phrases. -/
def nomOk (nom : String) : Bool :=
  10 < nom.length &&
  !(nomExclusions.any (fun excl => containsSub excl.data (pyLower nom).data))

/-- The inner loop of `_extract_nom`: first cleaned candidate passing the
test. -/
def firstOkNom : List String → Option String
  | [] => none
  | raw :: rest =>
    let nom := cleanNom raw
    if nomOk nom then some nom else firstOkNom rest

/-- `FFEScraper._extract_nom` (lines 152-170): three patterns tried in order
under `IGNORECASE`, all matches of each considered. -/
def extract_nom (html : String) : Option String :=
  let arr := html.data.toArray
  let fromPat (p : Re) : Option String := firstOkNom (findAllGroups true p arr)
  ((fromPat nomPat1).orElse (fun _ => fromPat nomPat2)).orElse (fun _ => fromPat nomPat3)

/-- `FFEScraper._extract_lieu` (lines 172-191): title patterns under
`IGNORECASE` with a 3-character threshold, then address patterns without
flags with a 5-character threshold. -/
def extract_lieu (html : String) : Option String :=
  let arr := html.data.toArray
  let fromTitle (p : Re) : Option String :=
    (searchGroup true p arr).bind (fun raw =>
      let lieu := collapseWs (pyStrip raw)
      if 3 < lieu.length then some lieu else none)
  let fromAddr (p : Re) : Option String :=
    (searchGroup false p arr).bind (fun raw =>
      let lieu := collapseWs (pyStrip raw)
      if 5 < lieu.length then some lieu else none)
  ((fromTitle lieuTitlePat1).orElse (fun _ => fromTitle lieuTitlePat2)).orElse
    (fun _ => (fromAddr adressePat1).orElse (fun _ => fromAddr adressePat2))

/-- `FFEScraper._extract_dates` (lines 193-207): all `DD/MM/YYYY` occurrences;
the first two are start and end; a single date serves as both. -/
def extract_dates (html : String) : Option String × Option String :=
  let arr := html.data.toArray
  match findAllGroups false datePat arr with
  | d1 :: d2 :: _ => (normalize_date d1, normalize_date d2)
  | [d1] => (normalize_date d1, normalize_date d1)
  | [] => (none, none)

/-- `FFEScraper._extract_pattern(html, "organisateur")` (lines 226-236):
first pattern whose match, stripped and collapsed, exceeds 2 characters. -/
def extract_organisateur (html : String) : Option String :=
  let arr := html.data.toArray
  let go (p : Re) : Option String :=
    (searchGroup true p arr).bind (fun raw =>
      let v := collapseWs (pyStrip raw)
      if 2 < v.length then some v else none)
  (go orgPat1).orElse (fun _ => go orgPat2)

/-- The discipline code table of `_extract_discipline` (lines 241-252), in
insertion order. -/
def disciplineCodes : List (String × String) :=
  [("AT", "Attelage"), ("CSO", "CSO"), ("CCE", "CCE"), ("DR", "Dressage"),
   ("HU", "Hunter"), ("EN", "Endurance"), ("WE", "Western"), ("VO", "Voltige"),
   ("EQ", "Équitation"), ("PO", "Pony Games")]

/-- The full-word fallback list of `_extract_discipline` (line 261). -/
def disciplineNames : List String :=
  ["Attelage", "Dressage", "Hunter", "Endurance", "Western", "Voltige"]

/-- `FFEScraper._extract_discipline` (lines 238-265): a code followed by a
level qualifier under `IGNORECASE`, else a case-insensitive substring match of
a full name. -/
def extract_discipline (html : String) : Option String :=
  let arr := html.data.toArray
  let fromCode : Option String :=
    disciplineCodes.findSome? (fun cn =>
      if (reSearch true (discPat cn.1) arr).isSome then some cn.2 else none)
  fromCode.orElse (fun _ =>
    disciplineNames.findSome? (fun name =>
      if containsSub (pyLower name).data (pyLower html).data then some name else none))

/-- `FFEScraper._check_is_open` (lines 267-272): any of the three opening
patterns matches under `IGNORECASE`. -/
def check_is_open (html : String) : Bool :=
  let arr := html.data.toArray
  [ouvertPat1, ouvertPat2, ouvertPat3].any (fun p => (reSearch true p arr).isSome)

/-- The parsing block of `fetch_concours_info` (lines 109-135): the extraction
calls performed on the body of a successful response, including the
`discipline - lieu` fallback name (lines 124-132) and the openness check. -/
def parseConcoursHtml (html : String) : ConcoursInfo :=
  let nom0 := extract_nom html
  let lieu := extract_lieu html
  let dates := extract_dates html
  let organisateur := extract_organisateur html
  let discipline := extract_discipline html
  let parts := (if pyTruthyStr discipline then [discipline.getD ""] else []) ++
               (if pyTruthyStr lieu then [lieu.getD ""] else [])
  let nom := if !(pyTruthyStr nom0) && (pyTruthyStr lieu || pyTruthyStr discipline)
                && !parts.isEmpty then
               some (String.intercalate " - " parts)
             else nom0
  { nom := nom, lieu := lieu, date_debut := dates.1, date_fin := dates.2,
    organisateur := organisateur, discipline := discipline,
    is_open := check_is_open html }

/-! ### `FFEScraper.fetch_concours_info` (claim C3) -/

/-- The outcome of the single `GET` issued by `fetch_concours_info`: either a
response with a status code and a body, or an `httpx.RequestError` (connection
refused, DNS or TLS failure, timeout). -/
inductive FetchOutcome where
  | response (status : Nat) (html : String)
  | netError
deriving DecidableEq

/-- Does the fetch step raise?  `response.raise_for_status()` raises
`httpx.HTTPStatusError` for every 4xx and 5xx status (real HTTP statuses stay
below 600), and a transport failure raises `httpx.RequestError`. -/
def isFetchError : FetchOutcome → Bool
  | .response status _ => 400 ≤ status
  | .netError => true

/-- The exception raised inside the `try` of `fetch_concours_info`. -/
inductive ScrapeErr where
  | httpStatusError (status : Nat)
  | requestError
deriving DecidableEq

/-- The `try` body of `fetch_concours_info` (lines 100-141): `GET`, then
`raise_for_status`, then parse.  Both failure modes raise before any field of
`info` has been assigned. -/
def fetch_body : FetchOutcome → Except ScrapeErr ConcoursInfo
  | .netError => .error .requestError
  | .response status html =>
    if 400 ≤ status then .error (.httpStatusError status)
    else .ok (parseConcoursHtml html)

/-- `FFEScraper.fetch_concours_info` (lines 87-150): `info = ConcoursInfo()`
is created before the `try`; the `except` clauses catch `HTTPStatusError`,
`RequestError` and `Exception`, only log, and fall through to `return info` —
the function is total and never lets an exception escape to its caller. -/
def fetch_concours_info (o : FetchOutcome) : ConcoursInfo :=
  match fetch_body o with
  | .ok info => info
  | .error _ => ConcoursInfo.empty

/-- Claim C3: `fetch_concours_info` never raises — it is a total function of
the fetch outcome, returning a `ConcoursInfo` snapshot for every outcome,
including arbitrary (malformed) HTML bodies; and on every fetch error
(connection refused, DNS/TLS failure, timeout, or HTTP status >= 400) the
returned snapshot is the empty one: `is_open = false` and all other fields
`None`. -/
theorem c3_scraper_total_empty_on_error :
    (∀ o : FetchOutcome, isFetchError o = true → fetch_concours_info o = ConcoursInfo.empty) ∧
    (∀ (status : Nat) (html : String), status < 400 →
      fetch_concours_info (.response status html) = parseConcoursHtml html) := by
  constructor
  · intro o h
    cases o with
    | netError => rfl
    | response status html =>
      simp only [isFetchError, decide_eq_true_eq] at h
      simp [fetch_concours_info, fetch_body, if_pos h]
  · intro status html h
    simp [fetch_concours_info, fetch_body, Nat.not_le.mpr h]

/-- Witness for C3: an HTTP 503 yields the empty snapshot; an HTTP 200 with an
arbitrary body yields the parsing of that body and no exception. -/
theorem c3_scraper_total_empty_on_error_witness :
    fetch_concours_info (.response 503 "<html>Service Unavailable</html>") = ConcoursInfo.empty ∧
    fetch_concours_info (.response 200 "<p>not a concours page") =
      parseConcoursHtml "<p>not a concours page" :=
  ⟨c3_scraper_total_empty_on_error.1 (.response 503 "<html>Service Unavailable</html>") rfl,
   c3_scraper_total_empty_on_error.2 200 "<p>not a concours page" (by decide)⟩

/-! ## `backend/utils/retry.py`: the rate limiter (claim C4)

`RateLimiter.acquire` (lines 152-182) runs entirely under `self._lock`, so
concurrent acquirers serialize: the i-th acquire reads the clock (`now`) after
the (i-1)-th finished, and the events of one acquire do not interleave with
another.  Time is modelled by rational numbers and `asyncio.sleep(d)` as
advancing the clock by exactly `d`; the clock readings after each sleep are
the corresponding exact values.  One acquire is then a pure function of the
limiter state and the clock value `now` read at entry, returning the
completion time (the value stored into `_last_request_time` at line 181) and
the new state. -/

/-- The state of `RateLimiter` (lines 134-150): `min_interval`,
`max_requests_per_minute`, `_last_request_time` (initially `0`) and
`_request_times` (initially empty, kept in insertion order). -/
structure RateLimiter where
  min_interval : ℚ
  max_requests_per_minute : ℕ
  last_request_time : ℚ
  request_times : List ℚ

/-- Lines 159-162: drop the timestamps one minute old or older
(`now - t < 60` is kept). -/
def pruneTimes (now : ℚ) (ts : List ℚ) : List ℚ :=
  ts.filter (fun t => now - t < 60)

/-- Lines 164-173: when the pruned window is full, wait until the oldest entry
(`self._request_times[0]`) is exactly one minute old, i.e. until
`oldest + 60`; the clock re-read after the sleep yields that value.  The `[]`
case is unreachable for a positive `max_requests_per_minute` (Python would
raise `IndexError` there). -/
def rpmDelay (now : ℚ) (maxRpm : ℕ) (pruned : List ℚ) : ℚ :=
  if maxRpm ≤ pruned.length then
    match pruned with
    | oldest :: _ => if 0 < 60 - (now - oldest) then oldest + 60 else now
    | [] => now
  else now

/-- Lines 175-178: when less than `min_interval` has elapsed since the last
request, sleep the difference, completing at `last + min_interval`. -/
def minIntervalDelay (minInterval last now1 : ℚ) : ℚ :=
  if now1 - last < minInterval then last + minInterval else now1

/-- `RateLimiter.acquire` (lines 152-182): prune, wait for the per-minute
window, wait for the minimum interval, then record the completion time in
`_last_request_time` and append it to `_request_times`. -/
def RateLimiter.acquire (st : RateLimiter) (now : ℚ) : ℚ × RateLimiter :=
  let pruned := pruneTimes now st.request_times
  let t := minIntervalDelay st.min_interval st.last_request_time
             (rpmDelay now st.max_requests_per_minute pruned)
  (t, { st with last_request_time := t, request_times := pruned ++ [t] })

/-- The global instance (line 193):
`RateLimiter(min_interval=2.0, max_requests_per_minute=20)`. -/
def rate_limiter : RateLimiter :=
  { min_interval := 2, max_requests_per_minute := 20,
    last_request_time := 0, request_times := [] }

/-- The completion times of a sequence of acquires with the given clock
readings at entry. -/
def acquireTrace (st : RateLimiter) : List ℚ → List ℚ
  | [] => []
  | a :: rest => (st.acquire a).1 :: acquireTrace (st.acquire a).2 rest

/-- The serialization guarantee of the mutex and of the monotone event-loop
clock: each acquire reads a clock value no earlier than the completion of the
previous acquire (which wrote `_last_request_time`). -/
def arrivalsSerialized (st : RateLimiter) : List ℚ → Prop
  | [] => True
  | a :: rest => st.last_request_time ≤ a ∧ arrivalsSerialized (st.acquire a).2 rest

/-- The clock never moves backwards across the per-minute wait. -/
theorem le_rpmDelay (now : ℚ) (M : ℕ) (pruned : List ℚ) :
    now ≤ rpmDelay now M pruned := by
  rcases pruned with _ | ⟨oldest, tl⟩
  · simp [rpmDelay]
  · unfold rpmDelay
    split
    · dsimp only
      by_cases hw : 0 < 60 - (now - oldest)
      · simp only [if_pos hw]
        linarith
      · simp only [if_neg hw]
        exact le_refl now
    · exact le_refl now

/-- The completion is at least `last + min_interval`. -/
theorem minIntervalDelay_ge_last (m last now1 : ℚ) :
    last + m ≤ minIntervalDelay m last now1 := by
  unfold minIntervalDelay
  split
  · exact le_refl _
  · rename_i h
    linarith [not_lt.mp h]

/-- The completion is no earlier than the clock after the per-minute wait. -/
theorem minIntervalDelay_ge_now (m last now1 : ℚ) :
    now1 ≤ minIntervalDelay m last now1 := by
  unfold minIntervalDelay
  split
  · rename_i h
    linarith
  · exact le_refl _

/-- In a strictly increasing list every member is at most the last element. -/
theorem mem_le_getLast {l : List ℚ} (hp : l.Pairwise (· < ·)) (hne : l ≠ [])
    {x : ℚ} (hx : x ∈ l) : x ≤ l.getLast hne := by
  induction l with
  | nil => cases hne rfl
  | cons a tl ih =>
    rcases List.mem_cons.mp hx with hxa | hxtl
    · subst hxa
      rcases tl with _ | ⟨b, tl'⟩
      · simp [List.getLast]
      · have hlt : x < (b :: tl').getLast (by simp) :=
          (List.pairwise_cons.mp hp).1 _ (List.getLast_mem _)
        rw [List.getLast_cons (by simp)]
        exact le_of_lt hlt
    · have hne' : tl ≠ [] := List.ne_nil_of_mem hxtl
      rw [List.getLast_cons hne']
      exact ih (List.pairwise_cons.mp hp).2 hne' hxtl

/-- Counting the members of a sublist inside a duplicate-free list recovers a
count over the sublist. -/
theorem countP_mem_of_sublist (p : ℚ → Bool) {l E : List ℚ} (hsub : l.Sublist E)
    (hnd : E.Nodup) :
    E.countP (fun t => decide (t ∈ l) && p t) = l.countP p := by
  induction hsub with
  | slnil => simp
  | @cons l₁ l₂ a hsub ih =>
    have hnd' := List.nodup_cons.mp hnd
    have ha : a ∉ l₁ := fun hal => hnd'.1 (hsub.subset hal)
    rw [List.countP_cons, ih hnd'.2]
    simp [ha]
  | @cons₂ l₁ l₂ a hsub ih =>
    have hnd' := List.nodup_cons.mp hnd
    rw [List.countP_cons, List.countP_cons]
    have hcongr : l₂.countP (fun t => decide (t ∈ a :: l₁) && p t) =
        l₂.countP (fun t => decide (t ∈ l₁) && p t) := by
      apply List.countP_congr
      intro x hx
      have hxa : x ≠ a := fun he => hnd'.1 (he ▸ hx)
      simp [List.mem_cons, hxa]
    rw [hcongr, ih hnd'.2]
    simp [List.mem_cons]

/-- If every window anchored at a member of a strictly increasing list holds
at most 20 members, then every sliding 60-second window does. -/
theorem windowBound_of_anchored (E : List ℚ) (hp : E.Pairwise (· < ·))
    (hwin : ∀ c ∈ E, E.countP (fun t => decide (c - 60 < t ∧ t ≤ c)) ≤ 20) (T : ℚ) :
    E.countP (fun t => decide (T < t ∧ t ≤ T + 60)) ≤ 20 := by
  by_cases hF : E.filter (fun t => decide (T < t ∧ t ≤ T + 60)) = []
  · rw [List.countP_eq_length_filter, hF]
    simp
  · set F := E.filter (fun t => decide (T < t ∧ t ≤ T + 60)) with hFdef
    set m := F.getLast hF with hm
    have hmF : m ∈ F := List.getLast_mem hF
    have hmE : m ∈ E := (List.mem_filter.mp hmF).1
    have hmp := of_decide_eq_true (List.mem_filter.mp hmF).2
    have hFpair : F.Pairwise (· < ·) := hp.sublist (List.filter_sublist E)
    have hmono : E.countP (fun t => decide (T < t ∧ t ≤ T + 60)) ≤
        E.countP (fun t => decide (m - 60 < t ∧ t ≤ m)) := by
      apply List.countP_mono_left
      intro x hx hpx
      have hxF : x ∈ F := List.mem_filter.mpr ⟨hx, hpx⟩
      have hxm : x ≤ m := mem_le_getLast hFpair hF hxF
      have hxw := of_decide_eq_true hpx
      exact decide_eq_true ⟨by linarith [hmp.2, hxw.1], hxm⟩
    exact le_trans hmono (hwin m hmE)

/-- Strictly increasing with gap 2 follows from the chain property. -/
theorem chain_pairwise_lt {E : List ℚ} (h : E.Chain' (fun x y => x + 2 ≤ y)) :
    E.Pairwise (· < ·) := by
  haveI : IsTrans ℚ (fun x y => x + 2 ≤ y) :=
    ⟨fun a b c hab hbc => le_trans hab (le_trans (by linarith : b ≤ b + 2) hbc)⟩
  exact (List.chain'_iff_pairwise.mp h).imp (fun hab => by linarith)

/-- The inductive invariant tying the limiter state to the list `E` of
completions emitted so far, for the global instance constants
(`min_interval = 2`, `max_requests_per_minute = 20`). -/
structure RLInv (st : RateLimiter) (E : List ℚ) : Prop where
  hmin : st.min_interval = 2
  hmax : st.max_requests_per_minute = 20
  hsub : st.request_times.Sublist E
  htimes_le : ∀ x ∈ st.request_times, x ≤ st.last_request_time
  hE_le : ∀ c ∈ E, c ≤ st.last_request_time
  hstale : ∀ c ∈ E, c ∉ st.request_times → c + 60 ≤ st.last_request_time
  hchain : E.Chain' (fun x y => x + 2 ≤ y)
  hlast : E = [] ∨ st.last_request_time ∈ E
  hwin : ∀ c ∈ E, E.countP (fun x => decide (c - 60 < x ∧ x ≤ c)) ≤ 20

/-- Completions satisfying a predicate that forces membership in a sublist
are no more numerous than that sublist. -/
theorem countP_le_of_forces (E l : List ℚ) (p : ℚ → Bool) (hsub : l.Sublist E)
    (hnodup : E.Nodup) (hforce : ∀ x ∈ E, p x = true → x ∈ l) :
    E.countP p ≤ l.length := by
  have h1 : E.countP p ≤ E.countP (fun x => decide (x ∈ l) && true) := by
    apply List.countP_mono_left
    intro x hx hpx
    simp [hforce x hx hpx]
  have h2 : E.countP (fun x => decide (x ∈ l) && true) = l.countP (fun _ => true) :=
    countP_mem_of_sublist (fun _ => true) hsub hnodup
  have h3 : l.countP (fun _ => true) = l.length := by
    simp [List.countP_eq_length_filter]
  omega

/-- A sublist all of whose members satisfy a predicate on the ambient
duplicate-free list is no longer than that predicate's count. -/
theorem length_le_countP (E l : List ℚ) (q : ℚ → Bool) (hsub : l.Sublist E)
    (hnodup : E.Nodup) (himp : ∀ x ∈ E, x ∈ l → q x = true) :
    l.length ≤ E.countP q := by
  have h2 : E.countP (fun x => decide (x ∈ l) && true) = l.countP (fun _ => true) :=
    countP_mem_of_sublist (fun _ => true) hsub hnodup
  have h1 : E.countP (fun x => decide (x ∈ l) && true) ≤ E.countP q := by
    apply List.countP_mono_left
    intro x hx hpx
    simp only [Bool.and_true, decide_eq_true_eq] at hpx
    exact himp x hx hpx
  have h3 : l.countP (fun _ => true) = l.length := by
    simp [List.countP_eq_length_filter]
  omega

/-- Core counting bound: the completions within one minute before the new
completion time `t` number at most 19, so appending `t` keeps every window at
or below 20. -/
theorem countP_window_before_new (st : RateLimiter) (E : List ℚ) (a : ℚ)
    (hsub : st.request_times.Sublist E)
    (htimes_le : ∀ x ∈ st.request_times, x ≤ st.last_request_time)
    (hstale : ∀ c ∈ E, c ∉ st.request_times → c + 60 ≤ st.last_request_time)
    (hlast : E = [] ∨ st.last_request_time ∈ E)
    (hwin : ∀ c ∈ E, E.countP (fun x => decide (c - 60 < x ∧ x ≤ c)) ≤ 20)
    (hnodup : E.Nodup)
    (ha : st.last_request_time ≤ a)
    (hmax : st.max_requests_per_minute = 20)
    {t : ℚ} (hat : a ≤ t)
    (hnt : rpmDelay a st.max_requests_per_minute (pruneTimes a st.request_times) ≤ t) :
    E.countP (fun x => decide (t - 60 < x ∧ x ≤ t)) ≤ 19 := by
  have hprsubE : (pruneTimes a st.request_times).Sublist E :=
    (List.filter_sublist _).trans hsub
  have hpr_mem : ∀ x ∈ pruneTimes a st.request_times,
      x ∈ st.request_times ∧ a - x < 60 := by
    intro x hx
    have h := List.mem_filter.mp hx
    exact ⟨h.1, of_decide_eq_true h.2⟩
  -- every completion in the window before `t` survives the prune
  have hwin_in_pruned : ∀ x ∈ E, decide (t - 60 < x ∧ x ≤ t) = true →
      x ∈ pruneTimes a st.request_times := by
    intro x hx hpx
    have hxw := of_decide_eq_true hpx
    by_cases hxt : x ∈ st.request_times
    · refine List.mem_filter.mpr ⟨hxt, decide_eq_true ?_⟩
      linarith [hxw.1]
    · have := hstale x hx hxt
      have hxle : x ≤ st.last_request_time - 60 := by linarith
      have : st.last_request_time ≤ t := le_trans ha hat
      linarith [hxw.1]
  by_cases hfull : 20 ≤ (pruneTimes a st.request_times).length
  · -- the window was full: the sleep pushed `t` to `oldest + 60` or later
    rcases hpr : pruneTimes a st.request_times with _ | ⟨oldest, tl⟩
    · rw [hpr] at hfull
      simp at hfull
    · have holdest_mem : oldest ∈ pruneTimes a st.request_times := by
        rw [hpr]; exact List.mem_cons_self _ _
      have hold := hpr_mem oldest holdest_mem
      have hrpm : rpmDelay a st.max_requests_per_minute (pruneTimes a st.request_times) =
          oldest + 60 := by
        rw [hpr] at hfull ⊢
        unfold rpmDelay
        rw [if_pos (by simpa [hmax] using hfull)]
        show (if 0 < 60 - (a - oldest) then oldest + 60 else a) = oldest + 60
        rw [if_pos (by linarith [hold.2])]
      have ht_old : oldest + 60 ≤ t := hrpm ▸ hnt
      have hEne : E ≠ [] := by
        intro hE
        rw [hE] at hprsubE
        have h0 := List.sublist_nil.mp hprsubE
        rw [h0] at hpr
        cases hpr
      have hlastE : st.last_request_time ∈ E := hlast.resolve_left hEne
      -- the pruned list itself fits in the window anchored at the last
      -- completion, so it has at most 20 entries
      have hlen20 : (pruneTimes a st.request_times).length ≤ 20 := by
        have h1 : (pruneTimes a st.request_times).length ≤
            E.countP (fun x =>
              decide (st.last_request_time - 60 < x ∧ x ≤ st.last_request_time)) := by
          apply length_le_countP E _ _ hprsubE hnodup
          intro x hx hxl
          have hm := hpr_mem x hxl
          have hx_le : x ≤ st.last_request_time := htimes_le x hm.1
          exact decide_eq_true ⟨by linarith [hm.2], hx_le⟩
        exact le_trans h1 (hwin _ hlastE)
      -- window members lie strictly above `oldest`, hence in its tail
      have hforce2 : ∀ x ∈ E, decide (t - 60 < x ∧ x ≤ t) = true → x ∈ tl := by
        intro x hx hpx
        have hxpr := hwin_in_pruned x hx hpx
        have hxw := of_decide_eq_true hpx
        have hxgt : oldest < x := by linarith [hxw.1]
        rw [hpr] at hxpr
        rcases List.mem_cons.mp hxpr with he | hmem
        · exact absurd he (by intro h; rw [h] at hxgt; exact lt_irrefl _ hxgt)
        · exact hmem
      have htl_sub : tl.Sublist E := by
        have h1 : tl.Sublist (oldest :: tl) := List.sublist_cons_self oldest tl
        have h2 := hpr ▸ hprsubE
        exact h1.trans h2
      have hcount := countP_le_of_forces E tl _ htl_sub hnodup hforce2
      have htl_len : tl.length ≤ 19 := by
        rw [hpr] at hlen20
        simp only [List.length_cons] at hlen20
        omega
      omega
  · -- the window was not full: it had at most 19 entries
    have hcount := countP_le_of_forces E (pruneTimes a st.request_times) _
      hprsubE hnodup hwin_in_pruned
    omega

/-- One acquire preserves the invariant, extending the completion history by
the new completion time. -/
theorem RLInv.step {st : RateLimiter} {E : List ℚ} (inv : RLInv st E) {a : ℚ}
    (ha : st.last_request_time ≤ a) :
    RLInv (st.acquire a).2 (E ++ [(st.acquire a).1]) := by
  obtain ⟨hmin, hmax, hsub, htimes_le, hE_le, hstale, hchain, hlast, hwin⟩ := inv
  have hEpair : E.Pairwise (· < ·) := chain_pairwise_lt hchain
  have hEnodup : E.Nodup := hEpair.imp ne_of_lt
  set t := (st.acquire a).1 with htdef
  have hstate : (st.acquire a).2 =
      { st with last_request_time := t,
                request_times := pruneTimes a st.request_times ++ [t] } := rfl
  have ht_last : st.last_request_time + 2 ≤ t := by
    have h := minIntervalDelay_ge_last st.min_interval st.last_request_time
      (rpmDelay a st.max_requests_per_minute (pruneTimes a st.request_times))
    calc st.last_request_time + 2 = st.last_request_time + st.min_interval := by rw [hmin]
      _ ≤ t := h
  have ht_now1 : rpmDelay a st.max_requests_per_minute (pruneTimes a st.request_times) ≤ t :=
    minIntervalDelay_ge_now st.min_interval st.last_request_time _
  have ht_a : a ≤ t := le_trans (le_rpmDelay a _ _) ht_now1
  have ht_lastle : st.last_request_time ≤ t := by linarith
  have hE_lt : ∀ c ∈ E, c < t := fun c hc => lt_of_le_of_lt (hE_le c hc) (by linarith)
  have hwin_new : E.countP (fun x => decide (t - 60 < x ∧ x ≤ t)) ≤ 19 :=
    countP_window_before_new st E a hsub htimes_le hstale hlast hwin hEnodup ha hmax
      ht_a ht_now1
  rw [hstate]
  refine ⟨hmin, hmax, ?_, ?_, ?_, ?_, ?_, ?_, ?_⟩
  · exact ((List.filter_sublist _).trans hsub).append (List.Sublist.refl [t])
  · intro x hx
    rcases List.mem_append.mp hx with hxp | hxt
    · have hxm := List.mem_filter.mp hxp
      have := htimes_le x hxm.1
      show x ≤ t
      linarith
    · rw [List.mem_singleton.mp hxt]
  · intro c hc
    rcases List.mem_append.mp hc with hcE | hct
    · show c ≤ t
      linarith [hE_le c hcE]
    · rw [List.mem_singleton.mp hct]
  · intro c hc hnotin
    rcases List.mem_append.mp hc with hcE | hct
    · show c + 60 ≤ t
      by_cases hct : c ∈ st.request_times
      · have hcp : c ∉ pruneTimes a st.request_times := by
          intro hcp
          exact hnotin (List.mem_append.mpr (Or.inl hcp))
        have hdrop : ¬(a - c < 60) := by
          intro hlt
          exact hcp (List.mem_filter.mpr ⟨hct, decide_eq_true hlt⟩)
        linarith [not_lt.mp hdrop]
      · linarith [hstale c hcE hct]
    · exact absurd (List.mem_append.mpr (Or.inr hct)) hnotin
  · refine List.chain'_append.mpr ⟨hchain, List.chain'_singleton t, ?_⟩
    intro x hx y hy
    have hxE : x ∈ E := List.mem_of_mem_getLast? hx
    have hyt : t = y := by simpa using hy
    rw [← hyt]
    linarith [hE_le x hxE]
  · right
    simp
  · intro c hc
    rw [List.countP_append]
    rcases List.mem_append.mp hc with hcE | hct
    · have hzero : List.countP (fun x => decide (c - 60 < x ∧ x ≤ c)) [t] = 0 := by
        simp
        exact fun _ => hE_lt c hcE
      rw [hzero]
      simpa using hwin c hcE
    · have hceq : c = t := List.mem_singleton.mp hct
      have hone : List.countP (fun x => decide (c - 60 < x ∧ x ≤ c)) [t] = 1 := by
        rw [hceq]
        simp
      rw [hone]
      have hwc : List.countP (fun x => decide (c - 60 < x ∧ x ≤ c)) E ≤ 19 := by
        rw [hceq]
        exact hwin_new
      omega

/-- The initial invariant: a fresh limiter and an empty history. -/
theorem RLInv.init : RLInv rate_limiter [] :=
  ⟨rfl, rfl, List.Sublist.refl [], by simp [rate_limiter], by simp, by simp,
   List.chain'_nil, Or.inl rfl, by simp⟩

/-- Running a serialized sequence of acquires preserves the invariant over
the extended history. -/
theorem RLInv.run {arrivals : List ℚ} : ∀ {st : RateLimiter} {E : List ℚ},
    RLInv st E → arrivalsSerialized st arrivals →
    ∃ st', RLInv st' (E ++ acquireTrace st arrivals) := by
  induction arrivals with
  | nil =>
    intro st E inv _
    exact ⟨st, by simpa [acquireTrace] using inv⟩
  | cons a rest ih =>
    intro st E inv hs
    obtain ⟨ha, hrest⟩ := hs
    obtain ⟨st', h'⟩ := ih (inv.step ha) hrest
    refine ⟨st', ?_⟩
    simpa [acquireTrace, List.append_assoc] using h'

/-- Claim C4: for the global rate limiter (`min_interval = 2` s,
`max_requests_per_minute = 20`) and every serialized sequence of `acquire`
calls, any two consecutive acquires complete at least `min_interval` apart,
and any sliding 60-second window contains at most `max_requests_per_minute`
completed acquires. -/
theorem c4_rate_limiter_bounds (arrivals : List ℚ)
    (hs : arrivalsSerialized rate_limiter arrivals) :
    (acquireTrace rate_limiter arrivals).Chain'
      (fun t1 t2 => t1 + rate_limiter.min_interval ≤ t2) ∧
    (∀ T : ℚ, (acquireTrace rate_limiter arrivals).countP
        (fun x => decide (T < x ∧ x ≤ T + 60)) ≤ rate_limiter.max_requests_per_minute) := by
  obtain ⟨st', inv⟩ := RLInv.run RLInv.init hs
  rw [List.nil_append] at inv
  constructor
  · have h := inv.hchain
    simpa [rate_limiter] using h
  · intro T
    have hb := windowBound_of_anchored _ (chain_pairwise_lt inv.hchain) inv.hwin T
    simpa [rate_limiter] using hb

/-- Witness for C4: the serialized arrival sequence `0, 2, 10` (each arrival
at or after the previous completion) satisfies both bounds; its completions
are `2, 4, 10`. -/
theorem c4_rate_limiter_bounds_witness :
    arrivalsSerialized rate_limiter [0, 2, 10] ∧
    ((acquireTrace rate_limiter [0, 2, 10]).Chain'
      (fun t1 t2 => t1 + rate_limiter.min_interval ≤ t2) ∧
     (∀ T : ℚ, (acquireTrace rate_limiter [0, 2, 10]).countP
        (fun x => decide (T < x ∧ x ≤ T + 60)) ≤ rate_limiter.max_requests_per_minute)) :=
  have hs : arrivalsSerialized rate_limiter [0, 2, 10] := by
    refine ⟨?_, ?_, ?_, trivial⟩ <;>
      norm_num [rate_limiter, RateLimiter.acquire, pruneTimes, rpmDelay, minIntervalDelay]
  ⟨hs, c4_rate_limiter_bounds [0, 2, 10] hs⟩

end FFEMonitor
